import Mathlib

/-!
Verification of the device-protocol session manager of the
homebridge-pentair-intellicenter plugin.

The embedding below translates the relevant TypeScript functions of the
repository into Lean definitions.  Strings on the wire are modelled as
lists of characters (the code only ever inspects single bytes, splits on
the newline byte and concatenates, so this is faithful for the protocol
payloads in question).  JSON.parse is an external library call and is
modelled as an abstract parameter of type List Char -> Option R.
-/

namespace Pentair

/-- Opening brace character (written numerically). -/
def lbrace : Char := Char.ofNat 123

/-- Closing brace character (written numerically). -/
def rbrace : Char := Char.ofNat 125

/-! ## Wire codec (platform.ts: handleDataReceived / isCompleteMessage /
processCompleteMessage / processMessageLine / isValidJsonStructure /
bufferIncompleteData)

The buffer is a list of characters.  A chunk is complete when it is
nonempty and its last byte is the newline byte (10). -/

/-- Translation of isCompleteMessage: chunk.length gt 0 and last byte is 10. -/
def isCompleteMessage (c : List Char) : Bool :=
  decide (c ≠ []) && decide (c.getLast? = some '\n')

/-- Whitespace characters stripped by the trim call on each line. -/
def isWs (c : Char) : Bool :=
  c = ' ' || c = '\t' || c = '\r' || c = '\n'

/-- Translation of String.prototype.trim as used by processMessageLine. -/
def trimWs (l : List Char) : List Char :=
  ((l.dropWhile isWs).reverse.dropWhile isWs).reverse

/-- Translation of isValidJsonStructure: the line starts with an opening
brace and ends with a closing brace. -/
def isValidJsonStructure (l : List Char) : Bool :=
  decide (l.head? = some lbrace) && decide (l.getLast? = some rbrace)

/-- Translation of processMessageLine.  The response delivered to
handleUpdate (if any): empty-after-trim lines are skipped, lines that are
not brace-delimited are skipped, JSON decode failure (parse returning
none) drops the line. -/
def processMessageLine {R : Type} (parse : List Char → Option R) (line : List Char) :
    Option R :=
  let t := trimWs line
  if t = [] then none
  else if isValidJsonStructure t then parse t
  else none

/-- Split a character list at newline characters, returning the list of
complete components and the trailing partial component.  The JavaScript
split on newline returns exactly the complete components followed by the
trailing partial. -/
def splitParts : List Char → List (List Char) × List Char
  | [] => ([], [])
  | c :: rest =>
    let r := splitParts rest
    if c = '\n' then ([] :: r.1, r.2)
    else
      match r.1 with
      | [] => ([], c :: r.2)
      | h :: t => ((c :: h) :: t, r.2)

/-- Translation of processCompleteMessage: concatenate buffer and chunk,
split on newlines, and run processMessageLine over every component
(including the trailing empty component produced by the split). -/
def processCompleteMessage {R : Type} (parse : List Char → Option R)
    (buf c : List Char) : List R :=
  let parts := splitParts (buf ++ c)
  (parts.1 ++ [parts.2]).filterMap (processMessageLine parse)

/-- Translation of bufferIncompleteData: if the buffer plus the chunk
exceeds the maximum buffer size the whole buffer is discarded (and the
chunk with it); otherwise the chunk is appended to the buffer. -/
def bufferIncompleteData (maxBufferSize : Nat) (buf c : List Char) :
    List Char × List Char :=
  if buf.length + c.length > maxBufferSize then ([], [])
  else (buf ++ c, [])

/-- Translation of handleDataReceived: returns the new buffer and the list
of responses passed to handleUpdate while processing this chunk. -/
def handleDataReceived {R : Type} (parse : List Char → Option R)
    (maxBufferSize : Nat) (buf c : List Char) : List Char × List R :=
  if isCompleteMessage c then ([], processCompleteMessage parse buf c)
  else
    let (b, _) := bufferIncompleteData maxBufferSize buf c
    (b, [])

/-- Feed a sequence of chunks to the data handler, accumulating the
emitted responses in order. -/
def feedChunks {R : Type} (parse : List Char → Option R) (maxBufferSize : Nat)
    (buf : List Char) : List (List Char) → List Char × List R
  | [] => (buf, [])
  | c :: cs =>
    let r := handleDataReceived parse maxBufferSize buf c
    let rest := feedChunks parse maxBufferSize r.1 cs
    (rest.1, r.2 ++ rest.2)

/-- Whether feeding the chunks never trips the buffer-overflow branch of
bufferIncompleteData. -/
def noOverflow (maxBufferSize : Nat) (buf : List Char) : List (List Char) → Bool
  | [] => true
  | c :: cs =>
    if isCompleteMessage c then noOverflow maxBufferSize [] cs
    else if buf.length + c.length > maxBufferSize then false
    else noOverflow maxBufferSize (buf ++ c) cs

/-- Responses produced by running the per-line processor over the complete
components of a character stream (the trailing partial component is not
included). -/
def lineOuts {R : Type} (f : List Char → Option R) (s : List Char) : List R :=
  (splitParts s).1.filterMap f

theorem splitParts_nil : splitParts [] = ([], []) := rfl

theorem splitParts_cons (c : Char) (s : List Char) :
    splitParts (c :: s) =
      if c = '\n' then ([] :: (splitParts s).1, (splitParts s).2)
      else
        match (splitParts s).1 with
        | [] => ([], c :: (splitParts s).2)
        | h :: t => ((c :: h) :: t, (splitParts s).2) := rfl

theorem splitParts_append (s t : List Char) :
    splitParts (s ++ t) =
      match (splitParts t).1 with
      | [] => ((splitParts s).1, (splitParts s).2 ++ (splitParts t).2)
      | h :: tt =>
        ((splitParts s).1 ++ ((splitParts s).2 ++ h) :: tt, (splitParts t).2) := by
  induction s with
  | nil =>
    cases h : (splitParts t).1 with
    | nil =>
      simp only [List.nil_append, splitParts_nil, h, List.nil_append]
      rw [← h]
    | cons a l =>
      simp only [List.nil_append, splitParts_nil, h, List.nil_append]
      rw [← h]
  | cons c s ih =>
    simp only [List.cons_append, splitParts_cons, ih]
    by_cases hc : c = '\n'
    · simp only [if_pos hc]
      cases h : (splitParts t).1 with
      | nil => simp [h]
      | cons a l => simp [h]
    · simp only [if_neg hc]
      cases h : (splitParts t).1 with
      | nil =>
        cases hs : (splitParts s).1 with
        | nil => simp [h, hs]
        | cons b m => simp [h, hs]
      | cons a l =>
        cases hs : (splitParts s).1 with
        | nil => simp [h, hs]
        | cons b m => simp [h, hs]

theorem splitParts_of_last_nl (s : List Char) (h : s.getLast? = some '\n') :
    (splitParts s).2 = [] ∧ (splitParts s).1 ≠ [] := by
  induction s with
  | nil => simp at h
  | cons c s ih =>
    cases s with
    | nil =>
      simp [List.getLast?] at h
      subst h
      simp [splitParts_cons, splitParts_nil]
    | cons d s1 =>
      rw [List.getLast?_cons_cons] at h
      have ihr := ih h
      rw [splitParts_cons]
      by_cases hc : c = '\n'
      · simp only [if_pos hc]
        simpa using ihr.1
      · simp only [if_neg hc]
        cases hs : (splitParts (d :: s1)).1 with
        | nil => exact absurd hs ihr.2
        | cons a l => simp [hs, ihr.1]

theorem lineOuts_append {R : Type} (f : List Char → Option R) (s t : List Char)
    (h : s.getLast? = some '\n') :
    lineOuts f (s ++ t) = lineOuts f s ++ lineOuts f t := by
  have hs := splitParts_of_last_nl s h
  unfold lineOuts
  rw [splitParts_append s t]
  cases ht : (splitParts t).1 with
  | nil => simp [ht]
  | cons a l => simp [ht, hs.1]

theorem processMessageLine_nil {R : Type} (parse : List Char → Option R) :
    processMessageLine parse [] = none := by
  simp [processMessageLine, trimWs]

theorem processCompleteMessage_eq_lineOuts {R : Type}
    (parse : List Char → Option R) (buf c : List Char)
    (h : isCompleteMessage c = true) :
    processCompleteMessage parse buf c =
      lineOuts (processMessageLine parse) (buf ++ c) := by
  simp only [isCompleteMessage, Bool.and_eq_true, decide_eq_true_eq] at h
  have hlast : (buf ++ c).getLast? = some '\n' := by
    rw [List.getLast?_append_of_ne_nil _ h.1]; exact h.2
  have hp := splitParts_of_last_nl (buf ++ c) hlast
  unfold processCompleteMessage lineOuts
  rw [List.filterMap_append]
  simp [hp.1, processMessageLine_nil]

theorem feedChunks_outs (R : Type) (parse : List Char → Option R)
    (maxBufferSize : Nat) :
    ∀ (cs : List (List Char)) (buf : List Char),
      noOverflow maxBufferSize buf cs = true →
      (feedChunks parse maxBufferSize buf cs).2 ++
          lineOuts (processMessageLine parse)
            (feedChunks parse maxBufferSize buf cs).1 =
        lineOuts (processMessageLine parse) (buf ++ cs.flatten) := by
  intro cs
  induction cs with
  | nil => intro buf _; simp [feedChunks]
  | cons c cs ih =>
    intro buf hno
    by_cases hcomp : isCompleteMessage c = true
    · have hno2 : noOverflow maxBufferSize [] cs = true := by
        rw [noOverflow, hcomp] at hno; simpa using hno
      have hlast : (buf ++ c).getLast? = some '\n' := by
        simp only [isCompleteMessage, Bool.and_eq_true, decide_eq_true_eq] at hcomp
        rw [List.getLast?_append_of_ne_nil _ hcomp.1]; exact hcomp.2
      have := ih [] hno2
      simp only [feedChunks, handleDataReceived, hcomp, if_true]
      rw [List.append_assoc, this]
      rw [processCompleteMessage_eq_lineOuts parse buf c hcomp]
      have : buf ++ (c :: cs).flatten = (buf ++ c) ++ cs.flatten := by
        simp [List.flatten_cons]
      rw [this, lineOuts_append _ _ _ hlast]
      simp
    · have hcf : isCompleteMessage c = false := by
        simpa using hcomp
      have hfit : ¬ buf.length + c.length > maxBufferSize := by
        rw [noOverflow, hcf] at hno
        simp only [Bool.false_eq_true, if_false] at hno
        by_contra hgt
        rw [if_pos hgt] at hno
        exact Bool.noConfusion hno
      have hno2 : noOverflow maxBufferSize (buf ++ c) cs = true := by
        rw [noOverflow, hcf] at hno
        simp only [Bool.false_eq_true, if_false, if_neg hfit] at hno
        exact hno
      simp only [feedChunks, handleDataReceived, hcf, Bool.false_eq_true, if_false,
        bufferIncompleteData, if_neg hfit]
      have := ih (buf ++ c) hno2
      simp only [List.nil_append]
      rw [this]
      have : buf ++ (c :: cs).flatten = (buf ++ c) ++ cs.flatten := by
        simp [List.flatten_cons]
      rw [this]

theorem feedChunks_buf_all_nil (R : Type) (parse : List Char → Option R)
    (maxBufferSize : Nat) :
    ∀ (cs : List (List Char)), cs.flatten = [] →
      (feedChunks parse maxBufferSize [] cs).1 = [] := by
  intro cs
  induction cs with
  | nil => intro _; simp [feedChunks]
  | cons c cs ih =>
    intro hj
    rw [List.flatten_cons, List.append_eq_nil] at hj
    obtain ⟨hc, hcs⟩ := hj
    subst hc
    have h1 : isCompleteMessage ([] : List Char) = false := by decide
    simp only [feedChunks, handleDataReceived, h1, Bool.false_eq_true, if_false,
      bufferIncompleteData]
    simp only [List.length_nil, Nat.add_zero, Nat.zero_add]
    have : ¬ (0 : Nat) > maxBufferSize := by omega
    simp only [gt_iff_lt, Nat.not_lt] at this
    simp only [if_neg (by omega : ¬ (0 : Nat) + 0 > maxBufferSize)]
    simpa using ih hcs

theorem feedChunks_buf_empty (R : Type) (parse : List Char → Option R)
    (maxBufferSize : Nat) :
    ∀ (cs : List (List Char)) (buf : List Char), cs.flatten ≠ [] →
      (cs.flatten).getLast? = some '\n' →
      (feedChunks parse maxBufferSize buf cs).1 = [] := by
  intro cs
  induction cs with
  | nil => intro buf h _; simp [List.flatten] at h
  | cons c cs ih =>
    intro buf _ hlast
    rw [List.flatten_cons] at hlast
    by_cases hcs : cs.flatten = []
    · rw [hcs, List.append_nil] at hlast
      have hc : c ≠ [] := by
        intro h; rw [h] at hlast; simp at hlast
      have hcomp : isCompleteMessage c = true := by
        simp [isCompleteMessage, hc, hlast]
      simp only [feedChunks, handleDataReceived, hcomp, if_true]
      exact feedChunks_buf_all_nil R parse maxBufferSize cs hcs
    · rw [List.getLast?_append_of_ne_nil _ hcs] at hlast
      by_cases hcomp : isCompleteMessage c = true
      · simp only [feedChunks, handleDataReceived, hcomp, if_true]
        exact ih [] hcs hlast
      · have hcf : isCompleteMessage c = false := by simpa using hcomp
        simp only [feedChunks, handleDataReceived, hcf, Bool.false_eq_true, if_false,
          bufferIncompleteData]
        by_cases hov : buf.length + c.length > maxBufferSize
        · simp only [if_pos hov]
          exact ih [] hcs hlast
        · simp only [if_neg hov]
          exact ih (buf ++ c) hcs hlast

/-- Claim C1 (amended): feeding any split of a newline-terminated payload
produces exactly the same sequence of parsed responses as feeding the
payload as a single chunk, provided no intermediate accumulation of
chunks lacking a trailing newline exceeds the configured maximum buffer
size (the noOverflow side condition).  Without that side condition the
claim is false, see the counterexample. -/
theorem chunking_invariance {R : Type} (parse : List Char → Option R)
    (maxBufferSize : Nat) (cs : List (List Char))
    (h1 : cs.flatten ≠ []) (h2 : (cs.flatten).getLast? = some '\n')
    (h3 : noOverflow maxBufferSize [] cs = true) :
    (feedChunks parse maxBufferSize [] cs).2 =
      (feedChunks parse maxBufferSize [] [cs.flatten]).2 := by
  have hcomp : isCompleteMessage cs.flatten = true := by
    simp [isCompleteMessage, h1, h2]
  have hb := feedChunks_buf_empty R parse maxBufferSize cs [] h1 h2
  have ho := feedChunks_outs R parse maxBufferSize cs [] h3
  rw [hb] at ho
  simp only [lineOuts, splitParts, List.filterMap_nil, List.append_nil] at ho
  simp only [feedChunks, handleDataReceived, hcomp, if_true, List.append_nil]
  rw [ho, processCompleteMessage_eq_lineOuts parse [] cs.flatten hcomp]
  simp [lineOuts]

/-- Witness for the amended claim C1 at a concrete split of a concrete
payload. -/
theorem chunking_invariance_witness :
    ([[lbrace, rbrace, '\n'], ['[', ']', '\n']] : List (List Char)).flatten ≠ [] ∧
      (feedChunks (fun t => some t) 8 []
          [[lbrace, rbrace, '\n'], ['[', ']', '\n']]).2 =
        (feedChunks (fun t => some t) 8 []
          [[[lbrace, rbrace, '\n'], ['[', ']', '\n']].flatten]).2 :=
  ⟨by decide,
    chunking_invariance (fun t => some t) 8 [[lbrace, rbrace, '\n'], ['[', ']', '\n']]
      (by decide) (by decide) (by decide)⟩

/-- Counterexample to claim C1 as stated: with a configured maximum buffer
size of 4, the single well-formed newline-terminated JSON line consisting
of a seven-character brace-delimited object is reconstructed when fed as
one chunk, but lost entirely when split into a six-character chunk
followed by the rest, because the first chunk overflows the buffer and is
discarded.  The two feeds therefore emit different response sequences. -/
theorem chunking_counterexample :
    (feedChunks (fun t => some t) 4 []
        [[lbrace, '"', 'a', '"', ':', '1'], [rbrace, '\n']]).2 ≠
      (feedChunks (fun t => some t) 4 []
        [[lbrace, '"', 'a', '"', ':', '1', rbrace, '\n']]).2 := by
  decide

/-- Claim C2: a chunk that does not end in a newline and would push the
buffer past the configured maximum clears the entire buffer and emits no
parsed response from the discarded bytes; and after processing any chunk
whatsoever the internal buffer never exceeds the configured maximum. -/
theorem buffer_bound {R : Type} (parse : List Char → Option R)
    (maxBufferSize : Nat) (buf c : List Char) :
    (isCompleteMessage c = false →
        buf.length + c.length > maxBufferSize →
        handleDataReceived parse maxBufferSize buf c = ([], [])) ∧
      (handleDataReceived parse maxBufferSize buf c).1.length ≤ maxBufferSize := by
  constructor
  · intro hcf hov
    simp [handleDataReceived, hcf, bufferIncompleteData, hov]
  · by_cases hcomp : isCompleteMessage c = true
    · simp [handleDataReceived, hcomp]
    · have hcf : isCompleteMessage c = false := by simpa using hcomp
      by_cases hov : buf.length + c.length > maxBufferSize
      · simp [handleDataReceived, hcf, bufferIncompleteData, hov]
      · simp only [handleDataReceived, hcf, Bool.false_eq_true, if_false,
          bufferIncompleteData, if_neg hov]
        simp only [List.length_append]
        omega

/-- Witness for claim C2: a two-character non-newline chunk arriving on a
one-character buffer with maximum size 2 clears the buffer. -/
theorem buffer_bound_witness :
    handleDataReceived (fun t => some t) 2 ['a'] ['b', 'c'] = ([], []) ∧
      (handleDataReceived (fun t => some t) 2 ['a'] ['b', 'c']).1.length ≤ 2 :=
  ⟨(buffer_bound (fun t => some t) 2 ['a'] ['b', 'c']).1 (by decide) (by decide),
    (buffer_bound (fun t => some t) 2 ['a'] ['b', 'c']).2⟩

/-! ## Outbound command path (platform.ts: sendCommandNoWait /
sanitizeCommand / processCommandQueue / maybeReconnect /
handleConnectionEstablished / resetDiscoveryState)

Outbound requests are modelled with the fields the command path touches.
The uuid library is modelled as a fresh-identifier supply, a function
from a counter to a string together with the counter threading.  The
actual socket write is modelled by an oracle sendResult returning none on
success and the error text on failure. -/

/-- Hex digit test of the character class 0-9a-f with the i flag. -/
def isHexDigit (c : Char) : Bool :=
  (decide ('0' ≤ c) && decide (c ≤ '9')) ||
    (decide ('a' ≤ c) && decide (c ≤ 'f')) ||
    (decide ('A' ≤ c) && decide (c ≤ 'F'))

/-- Translation of the messageID regular expression of sanitizeCommand:
eight, four, four, four and twelve case-insensitive hex digits separated
by dashes. -/
def isUuidFormat (s : String) : Bool :=
  let l := s.data
  decide (l.length = 36) &&
    (List.range 36).all (fun i =>
      if i = 8 ∨ i = 13 ∨ i = 18 ∨ i = 23 then decide (l.getD i ' ' = '-')
      else isHexDigit (l.getD i ' '))

/-- Characters stripped from free-text arguments by sanitizeCommand. -/
def isInjectionChar (c : Char) : Bool :=
  c = '<' || c = '>' || c = '"' || c = Char.ofNat 39 || c = '&' || c = ';'

/-- Translation of the arguments sanitizer of sanitizeCommand. -/
def sanitizeText (s : String) : String :=
  String.mk (s.data.filter (fun c => ! isInjectionChar c))

/-- Characters kept in object names by sanitizeCommand. -/
def isObjnamChar (c : Char) : Bool :=
  (decide ('a' ≤ c) && decide (c ≤ 'z')) ||
    (decide ('A' ≤ c) && decide (c ≤ 'Z')) ||
    (decide ('0' ≤ c) && decide (c ≤ '9')) || c = '_' || c = '-'

/-- Translation of the object-name sanitizer of sanitizeCommand. -/
def sanitizeObjnam (s : String) : String :=
  String.mk (s.data.filter isObjnamChar)

/-- An entry of the objectList of an outbound request. -/
structure ICObjEntry where
  objnam : Option String
  params : List (String × String)
deriving DecidableEq

/-- An outbound IntelliCenter request, restricted to the fields the
command path reads or writes. -/
structure ICRequest where
  command : String
  messageID : String
  arguments : Option String
  objectList : List ICObjEntry
deriving DecidableEq

/-- An entry of the Dead Letter Queue, as built at the add call site of
processCommandQueue. -/
structure DLQEntry where
  command : ICRequest
  attempts : Nat
  error : String
  messageID : String
deriving DecidableEq

/-- The platform state touched by the outbound command path. -/
structure PState where
  rlCount : Nat
  rlWindowStart : Nat
  uuidCounter : Nat
  isSocketAlive : Bool
  processingQueue : Bool
  commandQueue : List ICRequest
  dlq : List DLQEntry
  sentLog : List ICRequest
  reconnectRequested : Bool
deriving DecidableEq

/-- Modelled from the spec: the rate limiter of the errorHandling module
(that module is not under src/); a token-bucket limiter admitting 40
requests per 60000 ms window, where a rejected request changes nothing. -/
def recordRequest (now : Nat) (st : PState) : Bool × PState :=
  if st.rlWindowStart + 60000 ≤ now then
    (true, { st with rlWindowStart := now, rlCount := 1 })
  else if st.rlCount < 40 then (true, { st with rlCount := st.rlCount + 1 })
  else (false, st)

/-- Translation of sanitizeCommand: sanitize free-text arguments,
regenerate a messageID that does not match the UUID pattern, and strip
disallowed characters from every objnam of the objectList.  The second
component is the advanced fresh-identifier counter. -/
def sanitizeCommand (gen : Nat → String) (k : Nat) (cmd : ICRequest) :
    ICRequest × Nat :=
  let c1 := { cmd with arguments := cmd.arguments.map sanitizeText }
  let c2k :=
    if isUuidFormat c1.messageID then (c1, k)
    else ({ c1 with messageID := gen k }, k + 1)
  ({ c2k.1 with
      objectList := c2k.1.objectList.map
        (fun o => { o with objnam := o.objnam.map sanitizeObjnam }) },
    c2k.2)

/-- Substring test on character lists, used for the error classification
of processCommandQueue. -/
def containsChars (needle : List Char) : List Char → Bool
  | [] => decide (needle = [])
  | c :: t => List.isPrefixOf needle (c :: t) || containsChars needle t

/-- Translation of the connection-related error classification: the error
text mentions connection or socket. -/
def isConnectionError (err : String) : Bool :=
  containsChars "connection".data err.data || containsChars "socket".data err.data

/-- Translation of maybeReconnect, abstracted to its observable effect on
the command path: a reconnect is requested.  (The debounce internals use
wall-clock time and the in-flight flag and do not matter to the claims
below.) -/
def maybeReconnect (st : PState) : PState :=
  { st with reconnectRequested := true }

/-- The body of the while loop of processCommandQueue, written with an
explicit fuel so that it computes by reduction; the loop pops one command
per iteration, so a fuel equal to the queue length is exact. -/
def drainLoopAux (sendResult : ICRequest → Option String) :
    Nat → PState → PState
  | 0, st => st
  | fuel + 1, st =>
    match st.commandQueue with
    | [] => st
    | cmd :: rest =>
      if st.isSocketAlive then
        match sendResult cmd with
        | none =>
          drainLoopAux sendResult fuel
            { st with commandQueue := rest, sentLog := st.sentLog ++ [cmd] }
        | some err =>
          let st2 := { st with commandQueue := rest,
                               dlq := st.dlq ++ [⟨cmd, 1, err, cmd.messageID⟩] }
          if isConnectionError err then maybeReconnect st2
          else drainLoopAux sendResult fuel st2
      else st

/-- Translation of processCommandQueue: re-entry and empty-queue guard,
then the drain loop, then the processingQueue flag is dropped. -/
def processCommandQueue (sendResult : ICRequest → Option String)
    (st : PState) : PState :=
  if st.processingQueue || st.commandQueue.isEmpty then st
  else
    let r := drainLoopAux sendResult st.commandQueue.length
      { st with processingQueue := true }
    { r with processingQueue := false }

/-- Translation of sendCommandNoWait: rate-limiter gate (dropped on
rejection), socket-aliveness gate (reconnect request on a dead socket),
then sanitize, enqueue and drain. -/
def sendCommandNoWait (gen : Nat → String)
    (sendResult : ICRequest → Option String) (now : Nat) (st : PState)
    (cmd : ICRequest) : PState :=
  let r := recordRequest now st
  if ! r.1 then r.2
  else if ! r.2.isSocketAlive then maybeReconnect r.2
  else
    let s := sanitizeCommand gen r.2.uuidCounter cmd
    processCommandQueue sendResult
      { r.2 with uuidCounter := s.2,
                 commandQueue := r.2.commandQueue ++ [s.1] }

/-- Translation of resetDiscoveryState restricted to the command-path
fields: the command queue and the processing flag are cleared.  (The
discovery bookkeeping it also clears is modelled in the discovery
section.) -/
def resetDiscoveryState (st : PState) : PState :=
  { st with commandQueue := [], processingQueue := false }

/-- Translation of handleConnectionEstablished: the socket is marked
alive and resetDiscoveryState runs before a fresh discovery starts.
(startDeviceDiscovery then only enqueues new discovery commands; it never
restores the cleared queue.) -/
def handleConnectionEstablished (st : PState) : PState :=
  resetDiscoveryState { st with isSocketAlive := true }

/-- Claim C3: once 40 commands were admitted inside the current
60-second window, a further sendCommandNoWait drops the command
entirely: the state is unchanged, so nothing is queued, sent or put in
the Dead Letter Queue. -/
theorem rate_limit_drop (gen : Nat → String)
    (sendResult : ICRequest → Option String) (now : Nat) (st : PState)
    (cmd : ICRequest) (hwin : now < st.rlWindowStart + 60000)
    (hcount : 40 ≤ st.rlCount) :
    sendCommandNoWait gen sendResult now st cmd = st ∧
      (sendCommandNoWait gen sendResult now st cmd).commandQueue =
        st.commandQueue ∧
      (sendCommandNoWait gen sendResult now st cmd).sentLog = st.sentLog ∧
      (sendCommandNoWait gen sendResult now st cmd).dlq = st.dlq := by
  have hrec : recordRequest now st = (false, st) := by
    unfold recordRequest
    rw [if_neg (by omega), if_neg (by omega)]
  have h : sendCommandNoWait gen sendResult now st cmd = st := by
    unfold sendCommandNoWait
    rw [hrec]
    simp
  exact ⟨h, by rw [h], by rw [h], by rw [h]⟩

/-- Witness for claim C3 at a concrete saturated limiter state. -/
theorem rate_limit_drop_witness :
    sendCommandNoWait (fun _ => "") (fun _ => none) 5
        ⟨40, 0, 0, true, false, [], [], [], false⟩
        ⟨"SetParamList", "x", none, []⟩ =
      ⟨40, 0, 0, true, false, [], [], [], false⟩ :=
  (rate_limit_drop (fun _ => "") (fun _ => none) 5
    ⟨40, 0, 0, true, false, [], [], [], false⟩
    ⟨"SetParamList", "x", none, []⟩ (by decide) (by decide)).1

/-- Claim C4 (amended): a send failure puts the failed command into the
Dead Letter Queue; a failure that is not connection-related lets the
drain continue with the remaining queue, while a connection-related
failure requests a reconnect, stops the drain and leaves the not-yet-sent
commands in the command queue; however, when the next connection is
established, resetDiscoveryState clears the command queue, so the
remaining commands are discarded rather than sent in the next connected
period. -/
theorem send_failure_classification (sendResult : ICRequest → Option String)
    (st : PState) (cmd : ICRequest) (rest : List ICRequest) (err : String)
    (hq : st.commandQueue = cmd :: rest) (halive : st.isSocketAlive = true)
    (hp : st.processingQueue = false) (herr : sendResult cmd = some err) :
    (isConnectionError err = false →
        processCommandQueue sendResult st =
          { drainLoopAux sendResult rest.length
              { st with processingQueue := true, commandQueue := rest,
                        dlq := st.dlq ++ [⟨cmd, 1, err, cmd.messageID⟩] } with
            processingQueue := false }) ∧
      (isConnectionError err = true →
        processCommandQueue sendResult st =
          { st with processingQueue := false, commandQueue := rest,
                    dlq := st.dlq ++ [⟨cmd, 1, err, cmd.messageID⟩],
                    reconnectRequested := true }) ∧
      (∀ st2 : PState, (handleConnectionEstablished st2).commandQueue = []) := by
  obtain ⟨rc, rw1, uc, alive, pq, q, dlq, slog, rr⟩ := st
  simp only at hq halive hp
  subst hq halive hp
  refine ⟨?_, ?_, ?_⟩
  · intro hconn
    simp [processCommandQueue, drainLoopAux, herr, hconn]
  · intro hconn
    simp [processCommandQueue, drainLoopAux, herr, hconn, maybeReconnect]
  · intro st2
    simp [handleConnectionEstablished, resetDiscoveryState]

/-- First command of the concrete queue of the claim C4 counterexample. -/
def cmdA : ICRequest :=
  ⟨"SetParamList", "11111111-1111-1111-1111-111111111111", none, []⟩

/-- Second command of the concrete queue of the claim C4 counterexample. -/
def cmdB : ICRequest :=
  ⟨"SetParamList", "22222222-2222-2222-2222-222222222222", none, []⟩

/-- Concrete platform state of the claim C4 counterexample: connected,
idle queue worker, two queued commands. -/
def st0 : PState := ⟨0, 0, 0, true, false, [cmdA, cmdB], [], [], false⟩

/-- Send outcome of the claim C4 counterexample: the first command fails
with a connection-related error, everything else succeeds. -/
def sr0 : ICRequest → Option String :=
  fun c => if c = cmdA then some "socket closed" else none

/-- Counterexample to claim C4 as stated: after the connection-related
send failure the second command is still queued, but establishing the
next connection clears the command queue, so the command is not
available to be sent in the next connected period (and it is in no send
log either). -/
theorem dlq_requeue_counterexample :
    cmdB ∈ (processCommandQueue sr0 st0).commandQueue ∧
      (processCommandQueue sr0 st0).reconnectRequested = true ∧
      cmdB ∉ (handleConnectionEstablished (processCommandQueue sr0 st0)).commandQueue ∧
      cmdB ∉ (handleConnectionEstablished (processCommandQueue sr0 st0)).sentLog := by
  decide

/-- Witness for the amended claim C4 at the concrete failing queue. -/
theorem send_failure_classification_witness :
    processCommandQueue sr0 st0 =
      { st0 with processingQueue := false, commandQueue := [cmdB],
                 dlq := [⟨cmdA, 1, "socket closed", cmdA.messageID⟩],
                 reconnectRequested := true } :=
  (send_failure_classification sr0 st0 cmdA [cmdB] "socket closed"
      (by decide) (by decide) (by decide) (by decide)).2.1 (by decide)

/-- Elements moved into the send log by the drain loop all come from the
send log or the command queue of the starting state. -/
theorem drainLoopAux_sentLog_subset (sendResult : ICRequest → Option String) :
    ∀ (fuel : Nat) (st : PState) (c : ICRequest),
      c ∈ (drainLoopAux sendResult fuel st).sentLog →
      c ∈ st.sentLog ∨ c ∈ st.commandQueue := by
  intro fuel
  induction fuel with
  | zero => intro st c h; exact Or.inl h
  | succ n ih =>
    intro st c h
    cases hq : st.commandQueue with
    | nil =>
      simp only [drainLoopAux, hq] at h
      exact Or.inl h
    | cons cmd rest =>
      by_cases halive : st.isSocketAlive = true
      · cases hsr : sendResult cmd with
        | none =>
          simp only [drainLoopAux, hq, halive, hsr, if_true] at h
          rcases ih _ c h with h1 | h1
          · simp only at h1
            rcases List.mem_append.mp h1 with h2 | h2
            · exact Or.inl h2
            · simp only [List.mem_singleton] at h2
              subst h2
              exact Or.inr (List.mem_cons_self _ _)
          · simp only at h1
            exact Or.inr (List.mem_cons_of_mem _ h1)
        | some err =>
          by_cases hconn : isConnectionError err = true
          · simp only [drainLoopAux, hq, halive, hsr, hconn, if_true,
              maybeReconnect] at h
            exact Or.inl h
          · simp only [drainLoopAux, hq, halive, hsr, hconn, if_true,
              Bool.false_eq_true, if_false] at h
            rcases ih _ c h with h1 | h1
            · simp only at h1
              exact Or.inl h1
            · simp only at h1
              exact Or.inr (List.mem_cons_of_mem _ h1)
      · have halive2 : st.isSocketAlive = false := by
          simpa using halive
        simp only [drainLoopAux, hq, halive2, Bool.false_eq_true, if_false] at h
        exact Or.inl h

/-- Elements moved into the send log by processCommandQueue all come
from the send log or the command queue of the starting state. -/
theorem processCommandQueue_sentLog_subset
    (sendResult : ICRequest → Option String) (st : PState) (c : ICRequest)
    (h : c ∈ (processCommandQueue sendResult st).sentLog) :
    c ∈ st.sentLog ∨ c ∈ st.commandQueue := by
  unfold processCommandQueue at h
  by_cases hg : (st.processingQueue || st.commandQueue.isEmpty) = true
  · rw [if_pos hg] at h
    exact Or.inl h
  · rw [if_neg hg] at h
    simp only at h
    have hsub := drainLoopAux_sentLog_subset sendResult _ _ c h
    simpa using hsub

/-- Helper: when the fresh-identifier supply produces pattern-matching
identifiers, the message identifier of a sanitized command matches the
UUID pattern. -/
theorem sanitize_messageID_valid (gen : Nat → String) (k : Nat)
    (cmd : ICRequest) (hgen : isUuidFormat (gen k) = true) :
    isUuidFormat ((sanitizeCommand gen k cmd).1.messageID) = true := by
  unfold sanitizeCommand
  by_cases h : isUuidFormat cmd.messageID = true
  · simp [h]
  · simp only [Bool.not_eq_true] at h
    simp [h, hgen]

/-- recordRequest only touches the rate-limiter counters. -/
theorem recordRequest_fields (now : Nat) (st : PState) :
    (recordRequest now st).2.uuidCounter = st.uuidCounter ∧
      (recordRequest now st).2.isSocketAlive = st.isSocketAlive ∧
      (recordRequest now st).2.processingQueue = st.processingQueue ∧
      (recordRequest now st).2.commandQueue = st.commandQueue ∧
      (recordRequest now st).2.sentLog = st.sentLog ∧
      (recordRequest now st).2.dlq = st.dlq := by
  unfold recordRequest
  by_cases h1 : st.rlWindowStart + 60000 ≤ now
  · simp [h1]
  · by_cases h2 : st.rlCount < 40
    · simp [h1, h2]
    · simp [h1, h2]

/-- Claim C5: sanitizeCommand keeps a pattern-matching messageID and its
counter unchanged, regenerates a non-matching messageID from the fresh
supply advancing the counter, and produces pattern-matching identifiers
whenever the supply does; every command the send path appends to the
send log either was already logged or carries a pattern-matching
messageID; and the identifiers regenerated by two consecutive
sanitizations are distinct whenever the supply is injective on the two
counters used. -/
theorem message_id_sanitization (gen : Nat → String) (k : Nat)
    (cmd : ICRequest) :
    (isUuidFormat cmd.messageID = true →
        (sanitizeCommand gen k cmd).1.messageID = cmd.messageID ∧
          (sanitizeCommand gen k cmd).2 = k) ∧
      (isUuidFormat cmd.messageID = false →
        (sanitizeCommand gen k cmd).1.messageID = gen k ∧
          (sanitizeCommand gen k cmd).2 = k + 1) ∧
      (isUuidFormat (gen k) = true →
        isUuidFormat ((sanitizeCommand gen k cmd).1.messageID) = true) ∧
      (∀ (sendResult : ICRequest → Option String) (now : Nat) (st : PState),
        st.isSocketAlive = true →
        isUuidFormat (gen st.uuidCounter) = true →
        (∀ q ∈ st.commandQueue, isUuidFormat q.messageID = true) →
        ∀ c ∈ (sendCommandNoWait gen sendResult now st cmd).sentLog,
          c ∈ st.sentLog ∨ isUuidFormat c.messageID = true) ∧
      (∀ cmd2 : ICRequest, isUuidFormat cmd.messageID = false →
        isUuidFormat cmd2.messageID = false → gen k ≠ gen (k + 1) →
        (sanitizeCommand gen (sanitizeCommand gen k cmd).2 cmd2).1.messageID ≠
          (sanitizeCommand gen k cmd).1.messageID) := by
  refine ⟨?_, ?_, ?_, ?_, ?_⟩
  · intro h; unfold sanitizeCommand; simp [h]
  · intro h; unfold sanitizeCommand; simp [h]
  · exact sanitize_messageID_valid gen k cmd
  · intro sendResult now st halive hgen hvalid c hc
    have hf := recordRequest_fields now st
    by_cases hr : (recordRequest now st).1 = true
    · simp only [sendCommandNoWait, hr, Bool.not_true, Bool.false_eq_true,
        if_false, hf.2.1, halive, Bool.not_false, if_true] at hc
      have hsub := processCommandQueue_sentLog_subset sendResult _ c hc
      simp only [hf.2.2.2.2.1, hf.2.2.2.1, hf.1] at hsub
      rcases hsub with h1 | h1
      · exact Or.inl h1
      · rcases List.mem_append.mp h1 with h2 | h2
        · exact Or.inr (hvalid c h2)
        · simp only [List.mem_singleton] at h2
          subst h2
          exact Or.inr (sanitize_messageID_valid gen st.uuidCounter cmd hgen)
    · simp only [Bool.not_eq_true] at hr
      simp only [sendCommandNoWait, hr, Bool.not_false, if_true] at hc
      rw [hf.2.2.2.2.1] at hc
      exact Or.inl hc
  · intro cmd2 h1 h2 hne
    unfold sanitizeCommand
    simp only [h1, h2, Bool.false_eq_true, if_false]
    simp only [ne_eq]
    exact fun h => hne h.symm

/-- Fresh-identifier supply of the claim C5 witness. -/
def genW : Nat → String :=
  fun n =>
    if n = 0 then "aaaaaaaa-aaaa-4aaa-8aaa-aaaaaaaaaaaa"
    else "bbbbbbbb-bbbb-4bbb-8bbb-bbbbbbbbbbbb"

/-- First malformed-identifier command of the claim C5 witness. -/
def cmdBad1 : ICRequest := ⟨"SetParamList", "bad-id-1", none, []⟩

/-- Second malformed-identifier command of the claim C5 witness. -/
def cmdBad2 : ICRequest := ⟨"SetParamList", "bad-id-2", none, []⟩

/-- Witness for claim C5: two concrete malformed identifiers are
regenerated into distinct pattern-matching identifiers. -/
theorem message_id_sanitization_witness :
    (sanitizeCommand genW (sanitizeCommand genW 0 cmdBad1).2 cmdBad2).1.messageID ≠
        (sanitizeCommand genW 0 cmdBad1).1.messageID ∧
      isUuidFormat ((sanitizeCommand genW 0 cmdBad1).1.messageID) = true :=
  ⟨(message_id_sanitization genW 0 cmdBad1).2.2.2.2 cmdBad2 (by decide)
      (by decide) (by decide),
    (message_id_sanitization genW 0 cmdBad1).2.2.1 (by decide)⟩

/-! ## Discovery orchestration (platform.ts: discoverDevices /
discoverDeviceType / handleDiscoveryTimeout / handleDiscoveryResponse /
shouldContinueDiscovery / shouldRetryFailedCommands / shouldRetryCommand /
retryFailedCommand / completeDiscovery / completeDiscoveryWithPartialData)

The discovery bookkeeping is the list of device types sent so far and the
list of device types whose command timed out, plus a completion flag.
Each send appends to the sent list (discoverDeviceType); the two event
handlers (a discovery response and a discovery timeout, always concerning
the most recently sent command, since commands are sent serially and the
single timeout is cleared on response) drive the transitions.  The
deep-merge of answer trees into the discovery buffer is orthogonal to the
retry accounting and is not modelled. -/

/-- The fixed ordered discovery command list of constants.ts. -/
def DISCOVER_COMMANDS : List String :=
  ["CIRCUITS", "PUMPS", "CHEMS", "VALVES", "HEATERS", "SENSORS", "GROUPS"]

/-- Discovery bookkeeping: discoverCommandsSent, discoverCommandsFailed
and whether discovery completed (completeDiscovery or
completeDiscoveryWithPartialData ran). -/
structure DiscState where
  sent : List String
  failed : List String
  done : Bool
deriving DecidableEq

/-- The two events that drive the discovery bookkeeping. -/
inductive DiscEvent
  | response
  | timeout
deriving DecidableEq

/-- Translation of the loop of shouldRetryFailedCommands: the first
failed command whose retryAttempts count in the sent list is exactly
one. -/
def findRetry (failed sent : List String) : Option String :=
  failed.find? (fun f => decide (sent.count f = 1))

/-- The retry target of shouldRetryFailedCommands: none unless some
command failed and all command types have been sent. -/
def retryTarget (s : DiscState) : Option String :=
  if s.failed ≠ [] ∧ s.sent.length = DISCOVER_COMMANDS.length then
    findRetry s.failed s.sent
  else none

/-- One transition of the discovery bookkeeping.  On a response
(handleDiscoveryResponse): if not all command types were sent, send the
next (sendNextDiscoveryCommand); otherwise retry the first
once-attempted failed command (retryFailedCommand) or complete.  On a
timeout (handleDiscoveryTimeout, always for the most recently sent
command): record the failure once, then send the next command if any
remain, otherwise complete with partial data. -/
def discoveryStep (s : DiscState) : DiscEvent → DiscState
  | .response =>
    if s.sent.length < DISCOVER_COMMANDS.length then
      { s with sent := s.sent ++ [DISCOVER_COMMANDS.getD s.sent.length ""] }
    else
      match retryTarget s with
      | some f => { s with sent := s.sent ++ [f] }
      | none => { s with done := true }
  | .timeout =>
    match s.sent.getLast? with
    | none => s
    | some cur =>
      let failed2 := if cur ∈ s.failed then s.failed else s.failed ++ [cur]
      if s.sent.length < DISCOVER_COMMANDS.length then
        { s with failed := failed2,
                 sent := s.sent ++ [DISCOVER_COMMANDS.getD s.sent.length ""] }
      else { s with failed := failed2, done := true }

/-- The discovery state right after discoverDevices sent the first
command of a fresh cycle. -/
def initDiscState : DiscState := ⟨DISCOVER_COMMANDS.take 1, [], false⟩

/-- A whole discovery cycle: fold the events over the initial state. -/
def runDiscovery (evs : List DiscEvent) : DiscState :=
  evs.foldl discoveryStep initDiscState

/-- Shape invariant of the sent list: it is a prefix of the fixed command
list, possibly extended by one single retried command, which itself is
one of the commands. -/
def DiscInv (s : DiscState) : Prop :=
  (s.sent.length ≤ 7 ∧ s.sent = DISCOVER_COMMANDS.take s.sent.length) ∨
    (s.sent.length = 8 ∧ s.sent.take 7 = DISCOVER_COMMANDS ∧
      ∀ f ∈ s.sent.drop 7, f ∈ DISCOVER_COMMANDS)

theorem discInv_mk (sent failed : List String) (done : Bool) :
    DiscInv ⟨sent, failed, done⟩ ↔
      ((sent.length ≤ 7 ∧ sent = DISCOVER_COMMANDS.take sent.length) ∨
        (sent.length = 8 ∧ sent.take 7 = DISCOVER_COMMANDS ∧
          ∀ f ∈ sent.drop 7, f ∈ DISCOVER_COMMANDS)) := Iff.rfl

theorem discInv_take_next (n : Nat) (hlt : n < 7) (failed : List String)
    (done : Bool) :
    DiscInv ⟨DISCOVER_COMMANDS.take n ++ [DISCOVER_COMMANDS.getD n ""],
      failed, done⟩ := by
  rw [discInv_mk]
  interval_cases n <;> decide

theorem discoveryStep_inv (s : DiscState) (e : DiscEvent) (h : DiscInv s) :
    DiscInv (discoveryStep s e) := by
  have hlen7 : DISCOVER_COMMANDS.length = 7 := rfl
  cases e with
  | response =>
    by_cases hlt : s.sent.length < DISCOVER_COMMANDS.length
    · have h1 : s.sent = DISCOVER_COMMANDS.take s.sent.length := by
        rcases h with ⟨_, h1⟩ | ⟨h8, _⟩
        · exact h1
        · rw [h8, hlen7] at hlt
          omega
      simp only [discoveryStep, if_pos hlt]
      rw [hlen7] at hlt
      nth_rewrite 1 [h1]
      exact discInv_take_next s.sent.length hlt s.failed s.done
    · simp only [discoveryStep, if_neg hlt]
      cases hr : retryTarget s with
      | none =>
        rcases h with h | h
        · exact Or.inl (by simpa using h)
        · exact Or.inr (by simpa using h)
      | some f =>
        have hcond : s.failed ≠ [] ∧ s.sent.length = DISCOVER_COMMANDS.length := by
          by_contra hc
          unfold retryTarget at hr
          rw [if_neg hc] at hr
          exact Option.noConfusion hr
        have hfind : findRetry s.failed s.sent = some f := by
          unfold retryTarget at hr
          rw [if_pos hcond] at hr
          exact hr
        have hcount : s.sent.count f = 1 := by
          have := List.find?_some hfind
          simpa using this
        have hsent : s.sent = DISCOVER_COMMANDS := by
          rcases h with ⟨_, h1⟩ | ⟨h8, _⟩
          · rw [hcond.2] at h1
            rw [h1]
            exact List.take_length DISCOVER_COMMANDS
          · rw [hcond.2, hlen7] at h8
            omega
        have hmem : f ∈ DISCOVER_COMMANDS := by
          rw [← hsent]
          exact List.count_pos_iff.mp (by omega)
        refine Or.inr ?_
        refine ⟨?_, ?_, ?_⟩
        · simp [hsent, hlen7]
        · have : (s.sent ++ [f]).take s.sent.length = s.sent :=
            List.take_left s.sent [f]
          rw [hcond.2, hlen7] at this
          simpa [hsent] using this
        · have : (s.sent ++ [f]).drop s.sent.length = [f] :=
            List.drop_left s.sent [f]
          rw [hcond.2, hlen7] at this
          intro g hg
          simp only at hg
          rw [this] at hg
          simp only [List.mem_singleton] at hg
          subst hg
          exact hmem
  | timeout =>
    cases hlast : s.sent.getLast? with
    | none => simpa [discoveryStep, hlast] using h
    | some cur =>
      by_cases hlt : s.sent.length < DISCOVER_COMMANDS.length
      · have h1 : s.sent = DISCOVER_COMMANDS.take s.sent.length := by
          rcases h with ⟨_, h1⟩ | ⟨h8, _⟩
          · exact h1
          · rw [h8, hlen7] at hlt
            omega
        simp only [discoveryStep, hlast, if_pos hlt]
        rw [hlen7] at hlt
        nth_rewrite 1 [h1]
        exact discInv_take_next s.sent.length hlt _ s.done
      · simp only [discoveryStep, hlast, if_neg hlt]
        rcases h with h | h
        · exact Or.inl (by simpa using h)
        · exact Or.inr (by simpa using h)

theorem runDiscovery_inv (evs : List DiscEvent) : DiscInv (runDiscovery evs) := by
  suffices h : ∀ s, DiscInv s → DiscInv (evs.foldl discoveryStep s) by
    exact h initDiscState (Or.inl (by decide))
  induction evs with
  | nil => intro s hs; exact hs
  | cons e evs ih =>
    intro s hs
    exact ih _ (discoveryStep_inv s e hs)

theorem discInv_count (s : DiscState) (h : DiscInv s) (c : String) :
    s.sent.count c ≤ 2 := by
  have hnodup : DISCOVER_COMMANDS.Nodup := by decide
  have hdc : DISCOVER_COMMANDS.count c ≤ 1 :=
    List.nodup_iff_count_le_one.mp hnodup c
  rcases h with ⟨_, h1⟩ | ⟨h8, h7, hdrop⟩
  · have hsub : (s.sent).count c ≤ DISCOVER_COMMANDS.count c := by
      rw [h1]
      exact List.Sublist.count_le (List.take_sublist _ _) c
    omega
  · have hsplit : s.sent.take 7 ++ s.sent.drop 7 = s.sent :=
      List.take_append_drop 7 s.sent
    have hdroplen : (s.sent.drop 7).length = 1 := by
      rw [List.length_drop, h8]
    have hcd : (s.sent.drop 7).count c ≤ 1 := by
      have := List.count_le_length c (s.sent.drop 7)
      omega
    calc s.sent.count c = (s.sent.take 7 ++ s.sent.drop 7).count c := by
          rw [hsplit]
      _ = (s.sent.take 7).count c + (s.sent.drop 7).count c :=
          List.count_append c _ _
      _ ≤ 1 + 1 := by
          rw [h7]
          omega
      _ ≤ 2 := by omega

/-- Claim C6: over one discovery cycle, every device-type query is sent
at most twice (so a timed-out command is re-sent at most once); a retry
is selected only when all seven command types have been sent and the
candidate appears exactly once in the sent list and previously failed;
and once every command including the single retry has been attempted
(eight sends), the next event completes discovery with whatever data was
merged. -/
theorem discovery_retry_at_most_once (evs : List DiscEvent) :
    (∀ c : String, (runDiscovery evs).sent.count c ≤ 2) ∧
      (∀ f : String, retryTarget (runDiscovery evs) = some f →
        (runDiscovery evs).sent = DISCOVER_COMMANDS ∧
          (runDiscovery evs).sent.count f = 1 ∧
          f ∈ (runDiscovery evs).failed) ∧
      (∀ e : DiscEvent, (runDiscovery evs).sent.length = 8 →
        (discoveryStep (runDiscovery evs) e).done = true) := by
  have hinv := runDiscovery_inv evs
  have hlen7 : DISCOVER_COMMANDS.length = 7 := rfl
  refine ⟨fun c => discInv_count _ hinv c, ?_, ?_⟩
  · intro f hr
    have hcond : (runDiscovery evs).failed ≠ [] ∧
        (runDiscovery evs).sent.length = DISCOVER_COMMANDS.length := by
      by_contra hc
      unfold retryTarget at hr
      rw [if_neg hc] at hr
      exact Option.noConfusion hr
    have hfind : findRetry (runDiscovery evs).failed (runDiscovery evs).sent =
        some f := by
      unfold retryTarget at hr
      rw [if_pos hcond] at hr
      exact hr
    have hcount : (runDiscovery evs).sent.count f = 1 := by
      have := List.find?_some hfind
      simpa using this
    have hsent : (runDiscovery evs).sent = DISCOVER_COMMANDS := by
      rcases hinv with ⟨_, h1⟩ | ⟨h8, _⟩
      · rw [hcond.2] at h1
        rw [h1]
        exact List.take_length DISCOVER_COMMANDS
      · rw [hcond.2, hlen7] at h8
        omega
    exact ⟨hsent, hcount, List.mem_of_find?_eq_some hfind⟩
  · intro e h8
    have hne : (runDiscovery evs).sent ≠ [] := by
      intro hnil
      rw [hnil] at h8
      simp at h8
    cases e with
    | response =>
      have hnlt : ¬ (runDiscovery evs).sent.length < DISCOVER_COMMANDS.length := by
        rw [h8, hlen7]
        omega
      have hrt : retryTarget (runDiscovery evs) = none := by
        unfold retryTarget
        rw [if_neg]
        intro hc
        rw [h8, hlen7] at hc
        omega
      simp [discoveryStep, hnlt, hrt]
    | timeout =>
      cases hlast : (runDiscovery evs).sent.getLast? with
      | none =>
        exact absurd (List.getLast?_eq_none_iff.mp hlast) hne
      | some cur =>
        have hnlt : ¬ (runDiscovery evs).sent.length < DISCOVER_COMMANDS.length := by
          rw [h8, hlen7]
          omega
        simp [discoveryStep, hlast, hnlt]

/-- Witness for claim C6: a cycle in which the first command times out
and the remaining six succeed reaches the retry decision for exactly
that command; after its single retry is sent, the next event (response
or timeout alike) completes discovery. -/
theorem discovery_retry_witness :
    ((runDiscovery [.timeout, .response, .response, .response, .response,
        .response]).sent = DISCOVER_COMMANDS ∧
      (runDiscovery [.timeout, .response, .response, .response, .response,
        .response]).sent.count "CIRCUITS" = 1 ∧
      "CIRCUITS" ∈ (runDiscovery [.timeout, .response, .response, .response,
        .response, .response]).failed) ∧
      (discoveryStep (runDiscovery [.timeout, .response, .response, .response,
        .response, .response, .response]) .response).done = true :=
  ⟨(discovery_retry_at_most_once [.timeout, .response, .response, .response,
      .response, .response]).2.1 "CIRCUITS" (by decide),
    (discovery_retry_at_most_once [.timeout, .response, .response, .response,
      .response, .response, .response]).2.2 .response (by decide)⟩

/-! ## Heater accessory (heaterAccessory.ts: getCurrentHeatingCoolingState /
checkHeatSourceState / getStateFromHeatMode / checkHeatModeState /
checkTemperatureState / setMode, plus the constants of constants.ts)

The accessory context carries the body fields and the constructor-converted
temperature values (in Celsius).  Temperatures are modelled as rationals;
JavaScript truthiness on an optional number is false for an absent value
and for zero. -/

/-- The three current heating-cooling states the accessory reports. -/
inductive HCState
  | off
  | heat
  | cool
deriving DecidableEq

/-- The fields of a HeaterAccessory read by
getCurrentHeatingCoolingState. -/
structure HeaterCtx where
  heaterId : String
  coolingEnabled : Bool
  bodyHeaterId : Option String
  heatSource : Option String
  heatMode : Option Int
  temperature : Option ℚ
  lowTemperature : Option ℚ
  highTemperature : Option ℚ
deriving DecidableEq

/-- JavaScript truthiness of an optional number (NaN aside): false for
absent and for zero. -/
def truthyNum (q : Option ℚ) : Bool :=
  match q with
  | none => false
  | some v => decide (v ≠ 0)

/-- Translation of getStateFromHeatMode: 9 cools, at least 1 heats,
otherwise idle. -/
def getStateFromHeatMode (heatMode : Int) : HCState :=
  if heatMode = 9 then .cool
  else if heatMode ≥ 1 then .heat
  else .off

/-- Translation of checkHeatSourceState.  An absent or empty (falsy)
heat source skips the check; the sentinel 00000 means OFF; a heat source
other than this heater means OFF; otherwise a present heatMode decides.
(The defensive string-to-number conversion of the source is the identity
on the numeric heatMode modelled here.) -/
def checkHeatSourceState (h : HeaterCtx) : Option HCState :=
  match h.heatSource with
  | none => none
  | some src =>
    if src = "" then none
    else if src = "00000" then some .off
    else if src ≠ h.heaterId then some .off
    else
      match h.heatMode with
      | none => none
      | some m => some (getStateFromHeatMode m)

/-- Translation of checkHeatModeState: a present heatMode decides even
without a heat source. -/
def checkHeatModeState (h : HeaterCtx) : Option HCState :=
  match h.heatMode with
  | none => none
  | some m => some (if m = 9 then HCState.cool else if m ≥ 1 then .heat else .off)

/-- Translation of checkTemperatureState: OFF unless this heater is the
body's selected heater; then a present heatMode decides; then compare the
current temperature against the (truthy) setpoints. -/
def checkTemperatureState (h : HeaterCtx) : HCState :=
  if h.bodyHeaterId ≠ some h.heaterId then .off
  else
    match checkHeatModeState h with
    | some s => s
    | none =>
      match h.temperature with
      | none => .off
      | some t =>
        if t = 0 then .off
        else if h.coolingEnabled then
          if truthyNum h.highTemperature ∧ h.highTemperature.getD 0 < t then .cool
          else if truthyNum h.lowTemperature ∧ t < h.lowTemperature.getD 0 then .heat
          else .off
        else
          if truthyNum h.lowTemperature ∧ t < h.lowTemperature.getD 0 then .heat
          else .off

/-- Translation of getCurrentHeatingCoolingState: the heat-source check
wins when it produces a state, otherwise fall back to the temperature
comparison. -/
def getCurrentHeatingCoolingState (h : HeaterCtx) : HCState :=
  match checkHeatSourceState h with
  | some s => s
  | none => checkTemperatureState h

/-- Heater context of the claim C7 counterexample: a heater whose id is
the sentinel itself. -/
def ctxSentinel : HeaterCtx :=
  ⟨"00000", false, some "00000", some "00000", some 4, none, none, none⟩

/-- Counterexample to claim C7 as stated: for a heater whose id is the
sentinel 00000, the body heatSource equals the heater id and heatMode is
4, yet the state resolves to OFF, not HEAT, because the sentinel check
takes priority over the id match; the claim's HEAT clause and its
sentinel clause conflict on this input. -/
theorem heat_source_priority_counterexample :
    ctxSentinel.heatSource = some ctxSentinel.heaterId ∧
      ctxSentinel.heatMode = some 4 ∧
      getCurrentHeatingCoolingState ctxSentinel ≠ HCState.heat := by
  refine ⟨rfl, rfl, ?_⟩
  decide

/-- Claim C7 (amended): for a heater whose id is nonempty and not the
sentinel 00000, a body heatSource equal to the heater id forces the state
from heatMode alone, regardless of temperatures and setpoints: heatMode 4
gives HEAT, 9 gives COOL, 0 gives OFF; and a body heatSource equal to the
sentinel 00000 always gives OFF. -/
theorem heat_source_priority (h : HeaterCtx) (hid1 : h.heaterId ≠ "")
    (hid2 : h.heaterId ≠ "00000") (hsrc : h.heatSource = some h.heaterId) :
    ((h.heatMode = some 4 → getCurrentHeatingCoolingState h = HCState.heat) ∧
        (h.heatMode = some 9 → getCurrentHeatingCoolingState h = HCState.cool) ∧
        (h.heatMode = some 0 → getCurrentHeatingCoolingState h = HCState.off)) ∧
      (∀ h2 : HeaterCtx, h2.heatSource = some "00000" →
        getCurrentHeatingCoolingState h2 = HCState.off) := by
  constructor
  · refine ⟨?_, ?_, ?_⟩ <;>
      · intro hm
        simp [getCurrentHeatingCoolingState, checkHeatSourceState, hsrc, hid1,
          hid2, hm, getStateFromHeatMode]
  · intro h2 hsrc2
    simp [getCurrentHeatingCoolingState, checkHeatSourceState, hsrc2]

/-- Heater context of the claim C7 witness: the current temperature sits
between the two setpoints, so the temperature comparison alone would
report OFF, yet the explicit heat source and heatMode 4 report HEAT. -/
def ctxHeating : HeaterCtx :=
  ⟨"H0001", true, some "H0001", some "H0001", some 4, some 28, some 26, some 30⟩

/-- Witness for the amended claim C7 at a concrete heating context. -/
theorem heat_source_priority_witness :
    getCurrentHeatingCoolingState ctxHeating = HCState.heat ∧
      checkTemperatureState ctxHeating = HCState.heat :=
  ⟨(((heat_source_priority ctxHeating (by decide) (by decide) rfl).1).1 rfl),
    by decide⟩

/-! ## Heater setMode (heaterAccessory.ts: setMode, constants.ts:
HEAT_MODE_OFF / HEAT_MODE_DUAL / HEAT_MODE_DEFAULT_ON / NO_HEATER_ID) -/

/-- constants.ts: MODE value meaning heat source off on the wire. -/
def HEAT_MODE_OFF : Nat := 1

/-- constants.ts: MODE value for dual heat mode. -/
def HEAT_MODE_DUAL : Nat := 10

/-- constants.ts: default ON mode for multi-mode heaters. -/
def HEAT_MODE_DEFAULT_ON : Nat := HEAT_MODE_DUAL

/-- constants.ts: the no-heater sentinel id. -/
def NO_HEATER_ID : String := "00000"

/-- The four target heating-cooling states setMode can receive. -/
inductive TargetHCState
  | off
  | heat
  | cool
  | auto
deriving DecidableEq

/-- The fields of a HeaterAccessory read by setMode. -/
structure SetModeCtx where
  heaterId : String
  heaterType : String
  bodyId : String
  heatModeOverride : Option Nat
deriving DecidableEq

/-- An outbound SetParamList command as emitted by setMode: generated
messageID, target object and parameter list. -/
structure OutCmd where
  command : String
  messageID : String
  objnam : String
  params : List (String × String)
deriving DecidableEq

/-- Translation of setMode: the commands handed to sendCommandNoWait in
order.  Any target other than OFF means mode On; mode On first turns the
body circuit STATUS to ON; then the heater command uses MODE-based
control when an override is set or the heater is a multi-mode HCOMBO
(On: override or the default-on mode, Off: HEAT_MODE_OFF), otherwise
HEATER-based control (On: the heater id, Off: the no-heater sentinel). -/
def setMode (gen : Nat → String) (k : Nat) (ctx : SetModeCtx)
    (value : TargetHCState) : List OutCmd :=
  let heater := if value = TargetHCState.off then NO_HEATER_ID else ctx.heaterId
  let modeOn : Bool := decide (value ≠ TargetHCState.off)
  let pumpCmds :=
    if modeOn then
      [OutCmd.mk "SetParamList" (gen k) ctx.bodyId [("STATUS", "ON")]]
    else []
  let k2 := if modeOn then k + 1 else k
  let useModeControl := ctx.heatModeOverride.isSome || ctx.heaterType = "HCOMBO"
  let params :=
    if useModeControl then
      [("MODE",
        if modeOn then toString (ctx.heatModeOverride.getD HEAT_MODE_DEFAULT_ON)
        else toString HEAT_MODE_OFF)]
    else [("HEATER", if modeOn then heater else NO_HEATER_ID)]
  pumpCmds ++ [OutCmd.mk "SetParamList" (gen k2) ctx.bodyId params]

/-- Claim C9: a non-OFF target emits exactly two commands in order, the
body STATUS ON command and then the heater command (MODE override or
default-on 10 under mode-based control, else HEATER with the heater id);
the OFF target emits exactly one command (MODE 1 under mode-based
control, else HEATER 00000) and no STATUS command. -/
theorem set_mode_commands (gen : Nat → String) (k : Nat) (ctx : SetModeCtx)
    (value : TargetHCState) :
    (value ≠ TargetHCState.off →
        setMode gen k ctx value =
          [OutCmd.mk "SetParamList" (gen k) ctx.bodyId [("STATUS", "ON")],
            OutCmd.mk "SetParamList" (gen (k + 1)) ctx.bodyId
              (if ctx.heatModeOverride.isSome || ctx.heaterType = "HCOMBO" then
                [("MODE", toString (ctx.heatModeOverride.getD HEAT_MODE_DEFAULT_ON))]
              else [("HEATER", ctx.heaterId)])]) ∧
      (value = TargetHCState.off →
        setMode gen k ctx value =
          [OutCmd.mk "SetParamList" (gen k) ctx.bodyId
            (if ctx.heatModeOverride.isSome || ctx.heaterType = "HCOMBO" then
              [("MODE", toString HEAT_MODE_OFF)]
            else [("HEATER", NO_HEATER_ID)])]) := by
  constructor
  · intro hv
    simp [setMode, hv]
  · intro hv
    subst hv
    simp [setMode]

/-- Witness for claim C9: a standard heater with no override receives
HEAT and emits the STATUS ON command followed by the HEATER command. -/
theorem set_mode_commands_witness :
    setMode (fun _ => "mid") 0 ⟨"H0001", "GENERIC", "B1101", none⟩
        TargetHCState.heat =
      [OutCmd.mk "SetParamList" "mid" "B1101" [("STATUS", "ON")],
        OutCmd.mk "SetParamList" "mid" "B1101" [("HEATER", "H0001")]] := by
  have h := (set_mode_commands (fun _ => "mid") 0
    ⟨"H0001", "GENERIC", "B1101", none⟩ TargetHCState.heat).1 (by decide)
  simpa using h

/-! ## Status-change dispatch targets (platform.ts:
updatePumpCircuitProperties / updateIntelliBriteColor)

A status-change parameter map is a list of key-value pairs with string
values, as delivered by the wire protocol; JavaScript truthiness of a
looked-up value is false for an absent key and for the empty string.  The
Number conversion applied to numeric parameters is an abstract parameter
of the update function. -/

/-- First value bound to a key in a parameter map, or none when the key
is absent. -/
def lookupParam (params : List (String × String)) (key : String) :
    Option String :=
  (params.find? (fun p => decide (p.1 = key))).map (fun p => p.2)

/-- The value bound to a key when that value is truthy: present and
nonempty. -/
def truthyParam (params : List (String × String)) (key : String) :
    Option String :=
  match lookupParam params key with
  | some v => if v = "" then none else some v
  | none => none

/-- The tracked fields of a pump circuit touched by
updatePumpCircuitProperties, plus its identification fields. -/
structure PumpCircuitRec where
  id : String
  circuitId : String
  speedType : String
  status : Option String
  speed : Int
  rpm : Option Int
  gpm : Option Int
  watts : Option Int
deriving DecidableEq

/-- Translation of updatePumpCircuitProperties: each of STATUS, SPEED,
RPM, GPM and WATTS overwrites its field only when the parameter value is
truthy; num is the Number conversion applied to the numeric values. -/
def updatePumpCircuitProperties (num : String → Int) (pc : PumpCircuitRec)
    (params : List (String × String)) : PumpCircuitRec :=
  let pc1 :=
    match truthyParam params "STATUS" with
    | some v => { pc with status := some v }
    | none => pc
  let pc2 :=
    match truthyParam params "SPEED" with
    | some v => { pc1 with speed := num v }
    | none => pc1
  let pc3 :=
    match truthyParam params "RPM" with
    | some v => { pc2 with rpm := some (num v) }
    | none => pc2
  let pc4 :=
    match truthyParam params "GPM" with
    | some v => { pc3 with gpm := some (num v) }
    | none => pc3
  match truthyParam params "WATTS" with
  | some v => { pc4 with watts := some (num v) }
  | none => pc4

theorem updatePumpCircuitProperties_eq (num : String → Int)
    (pc : PumpCircuitRec) (params : List (String × String)) :
    updatePumpCircuitProperties num pc params =
      { pc with
        status :=
          match truthyParam params "STATUS" with
          | some v => some v
          | none => pc.status,
        speed :=
          match truthyParam params "SPEED" with
          | some v => num v
          | none => pc.speed,
        rpm :=
          match truthyParam params "RPM" with
          | some v => some (num v)
          | none => pc.rpm,
        gpm :=
          match truthyParam params "GPM" with
          | some v => some (num v)
          | none => pc.gpm,
        watts :=
          match truthyParam params "WATTS" with
          | some v => some (num v)
          | none => pc.watts } := by
  unfold updatePumpCircuitProperties
  cases truthyParam params "STATUS" <;>
    cases truthyParam params "SPEED" <;>
      cases truthyParam params "RPM" <;>
        cases truthyParam params "GPM" <;>
          cases truthyParam params "WATTS" <;> rfl

theorem truthyParam_of_lookup (params : List (String × String))
    (key v : String) (h : lookupParam params key = some v) (hne : v ≠ "") :
    truthyParam params key = some v := by
  unfold truthyParam
  rw [h]
  simp [hne]

theorem truthyParam_none (params : List (String × String)) (key : String)
    (h : lookupParam params key = none ∨ lookupParam params key = some "") :
    truthyParam params key = none := by
  unfold truthyParam
  rcases h with h | h <;> simp [h]

/-- Pump circuit of the claim C8 counterexample. -/
def pc0 : PumpCircuitRec := ⟨"p0101", "C0006", "RPM", some "OFF", 1000, none, none, none⟩

/-- Counterexample to claim C8 as stated: the STATUS key is present in
the parameter map (bound to the empty string), yet the tracked status
field keeps its previous value, because the update tests JavaScript
truthiness of the value, not presence of the key. -/
theorem pump_update_counterexample :
    lookupParam [("STATUS", "")] "STATUS" = some "" ∧
      updatePumpCircuitProperties (fun _ => 0) pc0 [("STATUS", "")] = pc0 ∧
      pc0.status ≠ some "" := by
  decide

/-- Claim C8 (amended): the pump-circuit update overwrites exactly the
tracked fields (status, speed, rpm, gpm, watts) whose keys are present
in the parameter map with a nonempty (truthy) value; every tracked field
whose key is absent or bound to the empty string keeps its previous
value, and the identification fields are never touched. -/
theorem pump_update_fields (num : String → Int) (pc : PumpCircuitRec)
    (params : List (String × String)) :
    ((updatePumpCircuitProperties num pc params).id = pc.id ∧
        (updatePumpCircuitProperties num pc params).circuitId = pc.circuitId ∧
        (updatePumpCircuitProperties num pc params).speedType = pc.speedType) ∧
      ((∀ v, lookupParam params "STATUS" = some v → v ≠ "" →
          (updatePumpCircuitProperties num pc params).status = some v) ∧
        (lookupParam params "STATUS" = none ∨
            lookupParam params "STATUS" = some "" →
          (updatePumpCircuitProperties num pc params).status = pc.status)) ∧
      ((∀ v, lookupParam params "SPEED" = some v → v ≠ "" →
          (updatePumpCircuitProperties num pc params).speed = num v) ∧
        (lookupParam params "SPEED" = none ∨
            lookupParam params "SPEED" = some "" →
          (updatePumpCircuitProperties num pc params).speed = pc.speed)) ∧
      ((∀ v, lookupParam params "RPM" = some v → v ≠ "" →
          (updatePumpCircuitProperties num pc params).rpm = some (num v)) ∧
        (lookupParam params "RPM" = none ∨ lookupParam params "RPM" = some "" →
          (updatePumpCircuitProperties num pc params).rpm = pc.rpm)) ∧
      ((∀ v, lookupParam params "GPM" = some v → v ≠ "" →
          (updatePumpCircuitProperties num pc params).gpm = some (num v)) ∧
        (lookupParam params "GPM" = none ∨ lookupParam params "GPM" = some "" →
          (updatePumpCircuitProperties num pc params).gpm = pc.gpm)) ∧
      ((∀ v, lookupParam params "WATTS" = some v → v ≠ "" →
          (updatePumpCircuitProperties num pc params).watts = some (num v)) ∧
        (lookupParam params "WATTS" = none ∨
            lookupParam params "WATTS" = some "" →
          (updatePumpCircuitProperties num pc params).watts = pc.watts)) := by
  rw [updatePumpCircuitProperties_eq]
  refine ⟨⟨rfl, rfl, rfl⟩, ⟨?_, ?_⟩, ⟨?_, ?_⟩, ⟨?_, ?_⟩, ⟨?_, ?_⟩, ⟨?_, ?_⟩⟩
  · intro v hv hne
    simp [truthyParam_of_lookup params _ v hv hne]
  · intro h
    simp [truthyParam_none params _ h]
  · intro v hv hne
    simp [truthyParam_of_lookup params _ v hv hne]
  · intro h
    simp [truthyParam_none params _ h]
  · intro v hv hne
    simp [truthyParam_of_lookup params _ v hv hne]
  · intro h
    simp [truthyParam_none params _ h]
  · intro v hv hne
    simp [truthyParam_of_lookup params _ v hv hne]
  · intro h
    simp [truthyParam_none params _ h]
  · intro v hv hne
    simp [truthyParam_of_lookup params _ v hv hne]
  · intro h
    simp [truthyParam_none params _ h]

/-- Witness for the amended claim C8: a message carrying STATUS and RPM
overwrites exactly those two fields. -/
theorem pump_update_fields_witness :
    (updatePumpCircuitProperties (fun _ => 3000) pc0
        [("STATUS", "ON"), ("RPM", "3000")]).status = some "ON" ∧
      (updatePumpCircuitProperties (fun _ => 3000) pc0
        [("STATUS", "ON"), ("RPM", "3000")]).rpm = some 3000 ∧
      (updatePumpCircuitProperties (fun _ => 3000) pc0
        [("STATUS", "ON"), ("RPM", "3000")]).speed = pc0.speed :=
  ⟨((pump_update_fields (fun _ => 3000) pc0
        [("STATUS", "ON"), ("RPM", "3000")]).2.1.1 "ON" (by decide) (by decide)),
    ((pump_update_fields (fun _ => 3000) pc0
        [("STATUS", "ON"), ("RPM", "3000")]).2.2.2.1.1 "3000" (by decide)
      (by decide)),
    ((pump_update_fields (fun _ => 3000) pc0
        [("STATUS", "ON"), ("RPM", "3000")]).2.2.1.2 (Or.inl (by decide)))⟩

/-- The accessory context read and written by updateIntelliBriteColor:
the tracked circuit type (absent when no circuit is attached) and the
stored active color. -/
structure IBCtx where
  circuitType : Option String
  activeColor : Option String
deriving DecidableEq

/-- The guard of updateIntelliBriteColor: a circuit is attached and its
type is IntelliBrite (INTELLI) or a light-show group (LITSHO). -/
def isIntelliBriteCtx (c : IBCtx) : Bool :=
  match c.circuitType with
  | some t => decide (t = "INTELLI") || decide (t = "LITSHO")
  | none => false

/-- Translation of updateIntelliBriteColor: USE wins when present;
otherwise ACT applies unless it is the fixed-color marker 65535; when
neither applies the stored color is unchanged. -/
def updateIntelliBriteColor (ctx : IBCtx)
    (params : List (String × String)) : IBCtx :=
  if ! isIntelliBriteCtx ctx then ctx
  else
    let useColor := lookupParam params "USE"
    let actColor := lookupParam params "ACT"
    let newColor :=
      match useColor with
      | some u => some u
      | none =>
        match actColor with
        | some a => if a = "65535" then none else some a
        | none => none
    match newColor with
    | some c => { ctx with activeColor := some c }
    | none => ctx

/-- Claim C10: on a tracked IntelliBrite or light-show-group circuit, a
present USE parameter sets the stored activeColor; otherwise a present
ACT parameter sets it unless it equals 65535; an update carrying neither
USE nor an applicable ACT leaves the context unchanged. -/
theorem intellibrite_color_update (ctx : IBCtx)
    (params : List (String × String)) (hib : isIntelliBriteCtx ctx = true) :
    (∀ u, lookupParam params "USE" = some u →
        (updateIntelliBriteColor ctx params).activeColor = some u) ∧
      (lookupParam params "USE" = none →
        (∀ a, lookupParam params "ACT" = some a → a ≠ "65535" →
            (updateIntelliBriteColor ctx params).activeColor = some a) ∧
          (lookupParam params "ACT" = none ∨
              lookupParam params "ACT" = some "65535" →
            updateIntelliBriteColor ctx params = ctx)) := by
  constructor
  · intro u hu
    simp [updateIntelliBriteColor, hib, hu]
  · intro hu
    constructor
    · intro a ha hne
      simp [updateIntelliBriteColor, hib, hu, ha, hne]
    · intro h
      rcases h with h | h <;> simp [updateIntelliBriteColor, hib, hu, h]

/-- IntelliBrite context of the claim C10 witness. -/
def ib0 : IBCtx := ⟨some "INTELLI", some "WHITER"⟩

/-- Witness for claim C10: USE sets the color; a lone ACT of 65535
leaves the context unchanged. -/
theorem intellibrite_color_update_witness :
    (updateIntelliBriteColor ib0 [("USE", "REDR")]).activeColor = some "REDR" ∧
      updateIntelliBriteColor ib0 [("ACT", "65535")] = ib0 :=
  ⟨(intellibrite_color_update ib0 [("USE", "REDR")] (by decide)).1 "REDR"
      (by decide),
    ((intellibrite_color_update ib0 [("ACT", "65535")] (by decide)).2
      (by decide)).2 (Or.inr (by decide))⟩

end Pentair
